import Mathlib

/-!
Verification development for the Reddit minerals enrichment pipeline
(`src/enrich_data.py`).  The Python source is shallowly embedded:

* Python JSON values (the output of `json.loads`) are modeled by the
  inductive `Json`; Python dicts built from JSON objects are association
  lists (`PyDict`), with insertion-order updates as in CPython.
* `time.time()` values are modeled as rationals; the floating-point
  literal `0.9` of the rate limiter is taken as the exact rational 9/10,
  and IEEE rounding of products is not modeled.
* The Gemini API is an oracle: each attempt of the retry loop of
  `analyze_content` observes one `ApiResult`, which records exactly the
  distinctions the code branches on (candidate presence, block reason,
  finish reason, extracted JSON, raised exception message).  The
  constructor `ApiResult.raised` covers any exception raised inside the
  try block of an attempt (from the network call or from accessing
  `response.text`); only `Exception`-derived raises are modeled, since
  the code catches `except Exception`.
* The worker pool of `_process_items` is sequentialized (the claims under
  study are order-independent); the append-only output file is modeled by
  the `RunOutcome` record of appended lines plus an `openedLog` flag.
-/

/-- Model of a Python value produced by `json.loads`: JSON null, booleans,
numbers (as exact rationals), strings, lists, and objects.  An `obj` field
list stands for a CPython dict, i.e. keys are distinct and insertion
ordered. -/
inductive Json where
  | null : Json
  | bool (b : Bool) : Json
  | num (q : ℚ) : Json
  | str (s : String) : Json
  | arr (xs : List Json) : Json
  | obj (fields : List (String × Json)) : Json

/-- A Python dict whose keys are strings, as produced by `json.loads` on a
JSON object: an insertion-ordered association list. -/
abbrev PyDict := List (String × Json)

/-- Python `==` restricted to hashable scalar values (str, numbers, bool,
None), which is what dict keys in this program can be.  Cross-type numeric
equalities of Python (such as True == 1) are not modeled; comparisons
involving lists or dicts yield false here (such values are never dict keys
because inserting them raises first). -/
def Json.keyEq : Json → Json → Bool
  | .str a, .str b => a == b
  | .num a, .num b => a == b
  | .bool a, .bool b => a == b
  | .null, .null => true
  | _, _ => false

/-- Whether a Python value may be used as a dict key (is hashable). -/
def Json.pyHashable : Json → Bool
  | .arr _ => false
  | .obj _ => false
  | _ => true

/-- Python dict lookup `d.get(k)` / `d[k]` for string keys. -/
def pyGet (d : PyDict) (k : String) : Option Json :=
  (d.find? (fun p => p.1 == k)).map (fun p => p.2)

/-- Python dict lookup with a default, modelling `item.get(k, default)`
specialised to returning `Json.null` so it can be total; `_process_items`
and `_process_single_item` only apply it to items that carry the key. -/
def dictGetD (d : PyDict) (k : String) : Json :=
  ((d.find? (fun p => p.1 == k)).map (fun p => p.2)).getD Json.null

/-- Python `d[k] = v` on a dict with arbitrary (hashable) keys: overwrite
the value of an equal existing key in place (CPython keeps the original
key object and the original position), else append the new pair. -/
def pyDictInsert (d : List (Json × Json)) (k v : Json) : List (Json × Json) :=
  if d.any (fun p => Json.keyEq p.1 k) then
    d.map (fun p => if Json.keyEq p.1 k then (p.1, v) else p)
  else d ++ [(k, v)]

/-- Python `k in d` membership over the keys of a dict with Json keys. -/
def pyDictHasKey (d : List (Json × Json)) (k : Json) : Bool :=
  d.any (fun p => Json.keyEq p.1 k)

/-! ### ProcessingStats (enrich_data.py lines 29-53) -/

/-- Model of `ProcessingStats.success_rate` (lines 50-53):
`(successful / max(total_attempted, 1)) * 100` where
`total_attempted = successful + failed + blocked`.  Python float division
is modeled by exact rational division. -/
def success_rate (successful failed blocked : ℕ) : ℚ :=
  ((successful : ℚ) / ((max (successful + failed + blocked) 1 : ℕ) : ℚ)) * 100

/-! ### EfficientRateLimiter (enrich_data.py lines 55-90) -/

/-- Mutable state of `EfficientRateLimiter`: the request timestamp list and
the (timestamp, token-estimate) list.  The `threading.Lock` is not modeled;
the whole admission loop runs under it, so the model is the sequential
interleaving of loop iterations. -/
structure RLState where
  request_timestamps : List ℚ
  token_counts : List (ℚ × ℕ)

/-- Initial rate limiter state (constructor, lines 57-63). -/
def initRL : RLState := ⟨[], []⟩

/-- The request-per-minute margin `rpm_limit * 0.9` (line 58), with the
decimal literal 0.9 taken as the exact rational 9/10. -/
def rpmMargin (rpm : ℕ) : ℚ := (rpm : ℚ) * (9 / 10)

/-- The token-per-minute margin `tpm_limit * 0.9` (line 59). -/
def tpmMargin (tpm : ℕ) : ℚ := (tpm : ℚ) * (9 / 10)

/-- Pruning of request timestamps to the trailing 60 second window
(line 70): keep `t` with `t > now - 60`. -/
def pruneReq (now : ℚ) (l : List ℚ) : List ℚ :=
  l.filter (fun t => now - 60 < t)

/-- Pruning of token records to the trailing 60 second window (line 71). -/
def pruneTok (now : ℚ) (l : List (ℚ × ℕ)) : List (ℚ × ℕ) :=
  l.filter (fun tc => now - 60 < tc.1)

/-- Sum of the token estimates of a token record list (line 80). -/
def tokSum (l : List (ℚ × ℕ)) : ℕ := (l.map (fun tc => tc.2)).sum

/-- One iteration of the `while True` loop of `wait_if_needed`
(lines 67-90) at wall-clock time `now`: prune both windows; if the request
count reaches the margin, or the window token sum plus the estimate
reaches the token margin, sleep and retry (the returned Bool is false);
otherwise record the request and its estimate (true). -/
def wifIter (rpmLimit tpmLimit : ℚ) (est : ℕ) (now : ℚ) (s : RLState) :
    RLState × Bool :=
  if rpmLimit ≤ ((pruneReq now s.request_timestamps).length : ℚ) then
    (⟨pruneReq now s.request_timestamps, pruneTok now s.token_counts⟩, false)
  else if tpmLimit ≤ ((tokSum (pruneTok now s.token_counts) : ℚ) + (est : ℚ)) then
    (⟨pruneReq now s.request_timestamps, pruneTok now s.token_counts⟩, false)
  else
    (⟨pruneReq now s.request_timestamps ++ [now],
      pruneTok now s.token_counts ++ [(now, est)]⟩, true)

/-- A run of the rate limiter: a sequence of loop iterations, each given by
its wall-clock time and the token estimate of the admitting caller.  Every
call to `wait_if_needed` contributes one or more consecutive iterations
(all failed attempts followed by the recording one), so any execution of
the real object is a run of this form. -/
def rlRun (rpmLimit tpmLimit : ℚ) : List (ℚ × ℕ) → RLState → RLState
  | [], s => s
  | e :: rest, s => rlRun rpmLimit tpmLimit rest (wifIter rpmLimit tpmLimit e.2 e.1 s).1

/-! ### clean_text (enrich_data.py lines 153-159)

The three `re.sub` passes are modeled character-exactly over `List Char`:
URL removal (`http[s]?://\S+`), whitespace collapse (`\s+` to one space),
then case-insensitive deletion-marker removal
(`\[deleted\]|\[removed\]`), followed by `.strip()[:3000]`.  `re.sub`
replaces the leftmost non-overlapping matches and resumes scanning right
after each match, which is what the fueled scanners below do.  Python
`\s` and `str.strip` also cover Unicode whitespace; only the ASCII
whitespace characters are modeled here, which is faithful on ASCII input
and does not affect any claim. -/

/-- ASCII whitespace as matched by Python `\s`. -/
def isPySpace (c : Char) : Bool :=
  c == ' ' || c == '\t' || c == '\n' || c == '\r' || c == '\x0b' || c == '\x0c'

/-- Length of a match of `http[s]?://\S+` anchored at the head of `cs`,
if any: the scheme (the regex tries the `s` branch first) followed by the
greedy run of at least one non-whitespace character. -/
def urlMatchLen (cs : List Char) : Option ℕ :=
  if ("https://".data).isPrefixOf cs then
    if ((cs.drop 8).takeWhile (fun c => !isPySpace c)).length = 0 then none
    else some (8 + ((cs.drop 8).takeWhile (fun c => !isPySpace c)).length)
  else if ("http://".data).isPrefixOf cs then
    if ((cs.drop 7).takeWhile (fun c => !isPySpace c)).length = 0 then none
    else some (7 + ((cs.drop 7).takeWhile (fun c => !isPySpace c)).length)
  else none

/-- Fueled scanner for `re.sub(r'http[s]?://\S+', '', text)`: delete every
leftmost match and resume after it.  The fuel dominates the list length,
so the zero-fuel case is never reached from `removeUrls`. -/
def removeUrlsF : ℕ → List Char → List Char
  | _, [] => []
  | 0, cs => cs
  | fuel + 1, c :: cs =>
    match urlMatchLen (c :: cs) with
    | some n => removeUrlsF fuel ((c :: cs).drop n)
    | none => c :: removeUrlsF fuel cs

/-- The first `re.sub` pass of `clean_text` (line 156). -/
def removeUrls (cs : List Char) : List Char := removeUrlsF cs.length cs

/-- The second pass `re.sub(r'\s+', ' ', text)` (line 157): every maximal
whitespace run becomes a single space.  The flag records whether the
previous character was inside a whitespace run. -/
def collapseWsF : Bool → List Char → List Char
  | _, [] => []
  | prevWs, c :: cs =>
    if isPySpace c then
      if prevWs then collapseWsF true cs else ' ' :: collapseWsF true cs
    else c :: collapseWsF false cs

/-- The whitespace-collapsing pass of `clean_text`. -/
def collapseWs (cs : List Char) : List Char := collapseWsF false cs

/-- Whether a case-insensitive match of `\[deleted\]|\[removed\]` (both of
length 9) is anchored at the head of `cs`. -/
def markerAt (cs : List Char) : Bool :=
  ((cs.take 9).map Char.toLower == "[deleted]".data) ||
  ((cs.take 9).map Char.toLower == "[removed]".data)

/-- Fueled scanner for the third pass
`re.sub(r'\[deleted\]|\[removed\]', '', text, flags=re.IGNORECASE)`
(line 158). -/
def removeMarkersF : ℕ → List Char → List Char
  | _, [] => []
  | 0, cs => cs
  | fuel + 1, c :: cs =>
    if markerAt (c :: cs) then removeMarkersF fuel ((c :: cs).drop 9)
    else c :: removeMarkersF fuel cs

/-- The marker-removal pass of `clean_text`. -/
def removeMarkers (cs : List Char) : List Char := removeMarkersF cs.length cs

/-- Python `str.strip()` restricted to ASCII whitespace. -/
def pyStrip (cs : List Char) : List Char :=
  ((cs.dropWhile isPySpace).reverse.dropWhile isPySpace).reverse

/-- Model of `RedditMiningEnricher.clean_text` (lines 153-159): empty-check,
the three substitution passes in source order, then `.strip()[:3000]`. -/
def clean_text (s : String) : String :=
  if s.data.isEmpty then ""
  else ⟨(pyStrip (removeMarkers (collapseWs (removeUrls s.data)))).take 3000⟩

/-- Whether `cs` contains, at any position, a match of the URL pattern
`http[s]?://\S+`, i.e. a scheme immediately followed by a non-whitespace
character.  This is the formal reading of "contains a URL substring". -/
def hasUrl : List Char → Bool
  | [] => false
  | c :: cs => (urlMatchLen (c :: cs)).isSome || hasUrl cs

/-- Every whitespace character of the list is a plain space. -/
def allWsSpace (cs : List Char) : Bool :=
  cs.all (fun c => !isPySpace c || c == ' ')

/-- No two adjacent characters are both whitespace, i.e. every maximal
whitespace run has length one. -/
def noAdjWs : List Char → Bool
  | c1 :: c2 :: rest => (!(isPySpace c1 && isPySpace c2)) && noAdjWs (c2 :: rest)
  | _ => true

/-! ### default analysis and blocked placeholders (lines 102-116, 194-199) -/

/-- The fixed `concerns_detected` sub-dict of `default_analysis`
(lines 104-114), all scores 0.0. -/
def concernsDetected : PyDict :=
  [("environment", Json.num 0), ("health", Json.num 0),
   ("working conditions", Json.num 0), ("child labor", Json.num 0),
   ("pollution", Json.num 0), ("deforestation", Json.num 0),
   ("biodiversity loss", Json.num 0), ("water contamination", Json.num 0),
   ("air quality", Json.num 0), ("government policy", Json.num 0),
   ("corruption", Json.num 0), ("economic benefits", Json.num 0),
   ("local employment", Json.num 0), ("displacement", Json.num 0),
   ("community rights", Json.num 0), ("indigenous rights", Json.num 0),
   ("waste management", Json.num 0), ("foreign exploitation", Json.num 0),
   ("sustainability", Json.num 0), ("safety regulations", Json.num 0)]

/-- `self.default_analysis` (lines 102-116). -/
def default_analysis : PyDict :=
  [("sentiment", Json.str "Neutral"),
   ("keywords", Json.arr []),
   ("themes", Json.arr []),
   ("concerns_detected", Json.obj concernsDetected),
   ("mining_stance", Json.str "Neutral"),
   ("topic_classification", Json.str "neutral")]

/-- The key set `self.default_analysis.keys()` that `analyze_content`
checks on a parsed response (line 235). -/
def requiredKeys : List String := default_analysis.map (fun p => p.1)

/-- Python `d[k] = v` for a string-keyed dict: overwrite in place, else
append. -/
def dictSet (d : PyDict) (k : String) (v : Json) : PyDict :=
  if d.any (fun p => p.1 == k) then
    d.map (fun p => if p.1 == k then (p.1, v) else p)
  else d ++ [(k, v)]

/-- `create_blocked_analysis` (lines 194-199): copy `default_analysis`,
overwrite keywords with the reason, themes, and the sentinel topic. -/
def create_blocked_analysis (reason : String) : PyDict :=
  dictSet
    (dictSet
      (dictSet default_analysis
        "keywords" (Json.arr [Json.str "content_issue", Json.str reason]))
      "themes" (Json.arr [Json.str "content_blocked"]))
    "topic_classification" (Json.str "blocked")

/-! ### create_analysis_prompt (lines 161-186) -/

/-- The keys that the output-schema block of `create_analysis_prompt`
demands of the API, transcribed from lines 166-180 of the f-string: the
six fixed keys plus `relevance_to_{mineral}_score` (line 179). -/
def promptSchemaKeys (mineral : String) : List String :=
  ["sentiment", "keywords", "themes", "concerns_detected",
   "mining_stance", "topic_classification",
   "relevance_to_" ++ mineral ++ "_score"]

/-- Model of `RedditMiningEnricher.create_analysis_prompt` (lines 161-186):
the content line built from the cleaned title and body (with the outer
`.strip()`), spliced into the fixed schema text.  Literal braces of the
f-string are written with their hexadecimal escapes. -/
def create_analysis_prompt (mineral title body : String) : String :=
  ("Analyze the following text about " ++ mineral ++
   " mining. Your response MUST be a single, valid JSON object with the exact structure shown below. Do not add any explanatory text or markdown formatting.\n\n" ++
   "\x7b\n" ++
   "  \"sentiment\": \"Positive|Negative|Neutral\",\n" ++
   "  \"keywords\": [\"keyword1\", \"keyword2\", \"keyword3\", \"keyword4\", \"keyword5\"],\n" ++
   "  \"themes\": [\"primary_theme\", \"secondary_theme\"],\n" ++
   "  \"concerns_detected\": \x7b\n" ++
   "    \"environment\": 0.0, \"health\": 0.0, \"working conditions\": 0.0, \"child labor\": 0.0,\n" ++
   "    \"pollution\": 0.0, \"deforestation\": 0.0, \"biodiversity loss\": 0.0, \"water contamination\": 0.0,\n" ++
   "    \"air quality\": 0.0, \"government policy\": 0.0, \"corruption\": 0.0, \"economic benefits\": 0.0,\n" ++
   "    \"local employment\": 0.0, \"displacement\": 0.0, \"community rights\": 0.0, \"indigenous rights\": 0.0,\n" ++
   "    \"waste management\": 0.0, \"foreign exploitation\": 0.0, \"sustainability\": 0.0, \"safety regulations\": 0.0\n" ++
   "  \x7d,\n" ++
   "  \"mining_stance\": \"Pro-mining|Anti-mining|Neutral\",\n" ++
   "  \"topic_classification\": \"mining-related|environmental|economic|social|technical|other\"\n" ++
   "  \"relevance_to_" ++ mineral ++ "_score\": 0.0\n" ++
   "\x7d\n\nText to analyze:\n---\n" ++
   (⟨pyStrip ("Title: " ++ clean_text title ++ "\n\nBody: " ++ clean_text body).data⟩ : String) ++
   "\n---\n")

/-- Whether `pat` occurs as a contiguous substring of `l`. -/
def listContainsSub : List Char → List Char → Bool
  | [], pat => pat.isEmpty
  | c :: t, pat => pat.isPrefixOf (c :: t) || listContainsSub t pat

/-- Python `pat in s` substring containment. -/
def strContains (s pat : String) : Bool := listContainsSub s.data pat.data

/-- A key name surrounded by JSON double quotes. -/
def strQuote (k : String) : String := "\"" ++ k ++ "\""

/-! ### analyze_content (lines 201-257) -/

/-- What the attempt observes after the candidate passed the finish-reason
check: `extract_json_from_response` found no brace-delimited substring
(`noJson`), `json.loads` raised (`badJson`), or parsing produced the
Python dict `obj` (`parsed`). -/
inductive RespText where
  | noJson : RespText
  | badJson : RespText
  | parsed (obj : PyDict) : RespText

/-- Outcome of one `model.generate_content` attempt, at the granularity the
code branches on: no candidates (with or without a prompt-feedback block
reason), a first candidate with its finish-reason name and extracted text
outcome, or an exception with its message (`str(e)`). -/
inductive ApiResult where
  | noCandidates (hasBlockReason : Bool) : ApiResult
  | candidate (finishName : String) (text : RespText) : ApiResult
  | raised (msg : String) : ApiResult

/-- The finish-reason whitelist of line 224. -/
def finishOk (fin : String) : Bool := fin == "STOP" || fin == "MAX_TOKENS"

/-- The rate-limit detection of line 248: case-insensitive containment of
any of the three markers in the exception text.  `str.lower()` is modeled
per character (faithful on ASCII exception text). -/
def isRateLimitMsg (msg : String) : Bool :=
  listContainsSub (msg.data.map Char.toLower) "429".data ||
    listContainsSub (msg.data.map Char.toLower) "quota".data ||
      listContainsSub (msg.data.map Char.toLower) "rate limit".data

/-- The required-key check of line 235:
`all(key in result for key in self.default_analysis.keys())`. -/
def hasAllKeys (obj : PyDict) : Bool :=
  requiredKeys.all (fun k => obj.any (fun p => p.1 == k))

/-- The retry loop of `analyze_content` (lines 207-257).  `fuel` is the
number of attempts still available (`max_retries - attempt`); the oracle
`resps` gives the outcome of each attempt.  The test `fuel = 0` after
consuming one unit is exactly the code's `attempt < max_retries - 1`
retry guard; exhausting the loop returns the `max_retries_exceeded`
placeholder (line 257).  The second component collects the `time.sleep`
durations in seconds, in order. -/
def analyzeLoop : ℕ → ℕ → (ℕ → ApiResult) → PyDict × List ℕ
  | 0, _, _ => (create_blocked_analysis "max_retries_exceeded", [])
  | fuel + 1, attempt, resps =>
    match resps attempt with
    | .noCandidates true => (create_blocked_analysis "prompt_blocked", [])
    | .noCandidates false =>
      if fuel = 0 then (create_blocked_analysis "no_candidates", [])
      else ((analyzeLoop fuel (attempt + 1) resps).1,
            5 :: (analyzeLoop fuel (attempt + 1) resps).2)
    | .candidate fin txt =>
      if finishOk fin then
        match txt with
        | .noJson =>
          if fuel = 0 then (create_blocked_analysis "no_json", [])
          else ((analyzeLoop fuel (attempt + 1) resps).1,
                5 :: (analyzeLoop fuel (attempt + 1) resps).2)
        | .badJson =>
          if fuel = 0 then (create_blocked_analysis "json_error", [])
          else ((analyzeLoop fuel (attempt + 1) resps).1,
                5 :: (analyzeLoop fuel (attempt + 1) resps).2)
        | .parsed obj =>
          if hasAllKeys obj then (obj, [])
          else if fuel = 0 then (create_blocked_analysis "invalid_structure", [])
          else ((analyzeLoop fuel (attempt + 1) resps).1,
                5 :: (analyzeLoop fuel (attempt + 1) resps).2)
      else (create_blocked_analysis ("safety_blocked_" ++ fin.toLower), [])
    | .raised msg =>
      if isRateLimitMsg msg then
        ((analyzeLoop fuel (attempt + 1) resps).1,
         min 300 (60 * 2 ^ attempt) :: (analyzeLoop fuel (attempt + 1) resps).2)
      else if fuel = 0 then (create_blocked_analysis "api_error", [])
      else ((analyzeLoop fuel (attempt + 1) resps).1,
            10 * 2 ^ attempt :: (analyzeLoop fuel (attempt + 1) resps).2)

/-- `analyze_content` at its default `max_retries = 3`, returning the
analysis dict (the rate-limiter admission that precedes the loop is the
separate `wifIter` model and does not affect the returned value). -/
def analyze_content (resps : ℕ → ApiResult) : PyDict :=
  (analyzeLoop 3 0 resps).1

/-- An attempt outcome that makes the attempt return the parsed result
(`return result`, line 239): a candidate with an allowed finish reason
whose parsed object carries every required key. -/
def attemptOk : ApiResult → Bool
  | .candidate fin (.parsed obj) => finishOk fin && hasAllKeys obj
  | _ => false

/-- An attempt outcome whose branch retries when budget remains (every
branch of lines 219-254 that executes `continue` or falls to the next
iteration). -/
def willRetry : ApiResult → Bool
  | .noCandidates false => true
  | .candidate fin .noJson => finishOk fin
  | .candidate fin .badJson => finishOk fin
  | .candidate fin (.parsed obj) => finishOk fin && !hasAllKeys obj
  | .raised _ => true
  | _ => false

/-- An attempt outcome that lets the `for` loop fall through even on the
last attempt: only the rate-limit exception branch (lines 248-251), which
sleeps without checking the budget. -/
def fallsThrough : ApiResult → Bool
  | .raised msg => isRateLimitMsg msg
  | _ => false

/-- The reason code carried in the keywords slot of a blocked placeholder,
if the dict has that shape. -/
def keywordsReason? (d : PyDict) : Option String :=
  match pyGet d "keywords" with
  | some (Json.arr [Json.str _, Json.str r]) => some r
  | _ => none

/-! ### load_enriched_data (lines 260-279) -/

/-- The only uncaught exception kind relevant to `load_enriched_data`:
a Python `TypeError` (the loop catches `json.JSONDecodeError` only). -/
inductive PyErr where
  | typeError : PyErr

/-- One line of the checkpoint file, described by the outcome of
`line.strip()` and `json.loads(line)`: a blank line, a line on which
`json.loads` raises `JSONDecodeError`, or a line parsing to the Python
value `j`.  The JSON grammar itself is not re-implemented; `parsed j`
stands for any concrete line text that parses to `j`. -/
inductive ParsedLine where
  | blank : ParsedLine
  | badJson : ParsedLine
  | parsed (j : Json) : ParsedLine

/-- Processing of one line by the loop body of `load_enriched_data`
(lines 267-278).  Blank and unparseable lines are skipped.  For a parsed
value, the code evaluates `'id' in item`: on a dict this is a key test; on
a list it is an element test and on a string a substring test, and a hit
is followed by `item[kind-mismatched index]`, a `TypeError`; on a number,
bool or None the membership test itself raises `TypeError`.  A dict whose
id value is unhashable raises `TypeError` at the dict assignment. -/
def loadLine (d : List (Json × Json)) : ParsedLine → Except PyErr (List (Json × Json))
  | .blank => .ok d
  | .badJson => .ok d
  | .parsed (Json.obj fields) =>
    match fields.find? (fun p => p.1 == "id") with
    | some kv =>
      if kv.2.pyHashable then .ok (pyDictInsert d kv.2 (Json.obj fields))
      else .error .typeError
    | none => .ok d
  | .parsed (Json.arr xs) =>
    if xs.any (fun x => match x with | Json.str s => s == "id" | _ => false) then
      .error .typeError
    else .ok d
  | .parsed (Json.str s) =>
    if strContains s "id" then .error .typeError else .ok d
  | .parsed _ => .error .typeError

/-- The fold of `loadLine` over the file, threading the accumulating dict
and aborting at the first uncaught exception. -/
def loadAux : List (Json × Json) → List ParsedLine → Except PyErr (List (Json × Json))
  | d, [] => .ok d
  | d, l :: rest =>
    match loadLine d l with
    | .ok d2 => loadAux d2 rest
    | .error e => .error e

/-- Model of `RedditMiningEnricher.load_enriched_data` (lines 260-279) on
an existing file with the given lines. -/
def load_enriched_data (lines : List ParsedLine) : Except PyErr (List (Json × Json)) :=
  loadAux [] lines

/-- Lines on which the loop body cannot raise: blank lines, unparseable
lines, and object lines whose id value (if any) is hashable. -/
def lineGood : ParsedLine → Bool
  | .blank => true
  | .badJson => true
  | .parsed (Json.obj fields) =>
    match fields.find? (fun p => p.1 == "id") with
    | some kv => kv.2.pyHashable
    | none => true
  | .parsed _ => false

/-- Lines on which the loop body of `load_enriched_data` raises an
uncaught TypeError once reached: a parsed number, boolean, or null (the
membership test `'id' in item` itself raises), a parsed list containing
the element "id" or a parsed string containing the substring "id" (the
subscript `item['id']` raises), and a parsed object whose id value is
unhashable (the dict assignment raises). -/
def lineRaises : ParsedLine → Bool
  | .blank => false
  | .badJson => false
  | .parsed (Json.obj fields) =>
    match fields.find? (fun p => p.1 == "id") with
    | some kv => !kv.2.pyHashable
    | none => false
  | .parsed (Json.arr xs) =>
    xs.any (fun x => match x with | Json.str s => s == "id" | _ => false)
  | .parsed (Json.str s) => strContains s "id"
  | .parsed _ => true

/-- The skip-and-build reading of the Checkpoint Store contract, written
from the words of the spec: ignore everything except parsed objects
carrying an id, and map each id to its record. -/
def loadOkStep (d : List (Json × Json)) : ParsedLine → List (Json × Json)
  | .parsed (Json.obj fields) =>
    match fields.find? (fun p => p.1 == "id") with
    | some kv => pyDictInsert d kv.2 (Json.obj fields)
    | none => d
  | _ => d

/-- The total mapping described by the spec for well-formed logs. -/
def loadOk (lines : List ParsedLine) : List (Json × Json) :=
  lines.foldl loadOkStep []

/-! ### the enrichment engine (lines 281-347) -/

/-- Observable effect of one `_process_items` call: whether the output
file was opened (the `with open(output_file, 'a')` on line 316 is only
reached past the early return of lines 306-308), the lines appended to it,
the item ids for which an API analysis was issued, and the per-run
counters. -/
structure RunOutcome where
  openedLog : Bool
  appended : List Json
  apiCalls : List Json
  successful : ℕ
  blocked : ℕ
  failed : ℕ

/-- The outcome of a run that processed nothing. -/
def initOutcome : RunOutcome := ⟨false, [], [], 0, 0, 0⟩

/-- Model of `_process_single_item` (lines 281-296) for an item that
carries an id.  The per-item API behaviour is abstracted by `oracle`
(the prompt built on line 290 determines it in the real system);
`analyze_content` runs at its default budget.  The result is `none`
exactly when the returned analysis dict is falsy (line 294). -/
def _process_single_item (oracle : PyDict → ℕ → ApiResult) (item : PyDict) :
    Json × Option PyDict :=
  if (analyze_content (oracle item)).isEmpty then (dictGetD item "id", none)
  else (dictGetD item "id",
        some [("id", dictGetD item "id"),
              ("analysis", Json.obj (analyze_content (oracle item)))])

/-- The stats classification of lines 334-340: a written result counts as
blocked when its analysis carries the sentinel topic, else successful. -/
def isBlockedTopic (line : PyDict) : Bool :=
  match pyGet line "analysis" with
  | some (Json.obj a) =>
    match pyGet a "topic_classification" with
    | some (Json.str s) => s == "blocked"
    | _ => false
  | _ => false

/-- Handling of one completed future by the collection loop of
`_process_items` (lines 323-347): append the line and bump the counters.
The exception arm of line 345 is unreachable in the model because the
worker body is total. -/
def recordResult (acc : RunOutcome) (res : Json × Option PyDict) : RunOutcome :=
  match res.2 with
  | some line =>
    if isBlockedTopic line then
      { acc with appended := acc.appended ++ [Json.obj line],
                 blocked := acc.blocked + 1 }
    else
      { acc with appended := acc.appended ++ [Json.obj line],
                 successful := acc.successful + 1 }
  | none => { acc with failed := acc.failed + 1 }

/-- The list comprehension of line 304: the items whose id is not already a
key of the enriched set. -/
def pendingItems (items : List PyDict) (enriched : List (Json × Json)) : List PyDict :=
  items.filter (fun it => !(enriched.any (fun p => Json.keyEq p.1 (dictGetD it "id"))))

/-- Model of `_process_items` (lines 299-347): filter the batch down to the
items whose id is not a key of the enriched set (line 304); if nothing is
left return before opening the output file (lines 306-308); otherwise open
the log, analyze every remaining item, and append each completed result.
Workers are sequentialized in submission order; the claims proved below do
not depend on completion order. -/
def _process_items (oracle : PyDict → ℕ → ApiResult) (items : List PyDict)
    (enriched : List (Json × Json)) : RunOutcome :=
  if (pendingItems items enriched).isEmpty then initOutcome
  else
    ((pendingItems items enriched).map (_process_single_item oracle)).foldl recordResult
      { initOutcome with
          openedLog := true,
          apiCalls := (pendingItems items enriched).map (fun it => dictGetD it "id") }

/-- Concrete API behaviour used to witness the exhaustion claim: two
retryable attempts (well-finished candidates without extractable JSON)
followed by a rate-limited exception. -/
def w4resps : ℕ → ApiResult := fun i =>
  if i < 2 then ApiResult.candidate "STOP" RespText.noJson
  else ApiResult.raised "quota hit"

/-- Concrete checkpoint file used to witness the load claim: a blank line,
an unparseable line, a record with an id, and an object without one. -/
def w6lines : List ParsedLine :=
  [ParsedLine.blank, ParsedLine.badJson,
   ParsedLine.parsed (Json.obj [("id", Json.str "a")]),
   ParsedLine.parsed (Json.obj [("x", Json.num 1)])]

/-! ## Helper lemmas -/

/-- Closed form of a blocked placeholder: `default_analysis` with the
keywords, themes and topic slots overwritten. -/
theorem create_blocked_eq (r : String) : create_blocked_analysis r =
    [("sentiment", Json.str "Neutral"),
     ("keywords", Json.arr [Json.str "content_issue", Json.str r]),
     ("themes", Json.arr [Json.str "content_blocked"]),
     ("concerns_detected", Json.obj concernsDetected),
     ("mining_stance", Json.str "Neutral"),
     ("topic_classification", Json.str "blocked")] := rfl

/-- Every blocked placeholder carries the sentinel topic classification. -/
theorem create_blocked_topic (r : String) :
    pyGet (create_blocked_analysis r) "topic_classification" =
      some (Json.str "blocked") := rfl

/-- The keywords slot of a blocked placeholder names its reason code. -/
theorem keywordsReason_blocked (r : String) :
    keywordsReason? (create_blocked_analysis r) = some r := rfl

/-- A blocked placeholder is a non-empty (truthy) dict. -/
theorem create_blocked_not_empty (r : String) :
    (create_blocked_analysis r).isEmpty = false := rfl

/-! ## C5: success_rate -/

/-- C5, counterexample.  At one success and one failure the code returns
50.0 (a percentage), not the ratio 1/2 the claim states, so
`success_rate` does not equal `successful / (successful+failed+blocked)`. -/
theorem success_rate_cex : success_rate 1 1 0 ≠ (1 : ℚ) / (1 + 1 + 0) := by
  norm_num [success_rate]

/-- C5, amended: for every value of the counters, `success_rate` equals
100 times successful divided by (successful + failed + blocked) — a
percentage — and equals 0 when that denominator is 0. -/
theorem success_rate_formula : ∀ successful failed blocked : ℕ,
    success_rate successful failed blocked =
      if successful + failed + blocked = 0 then 0
      else 100 * (successful : ℚ) / ((successful : ℚ) + (failed : ℚ) + (blocked : ℚ)) := by
  intro s f b
  by_cases h : s + f + b = 0
  · have hs : s = 0 := by omega
    have hf : f = 0 := by omega
    have hb : b = 0 := by omega
    subst hs; subst hf; subst hb
    norm_num [success_rate]
  · rw [if_neg h]
    unfold success_rate
    rw [Nat.max_eq_left (by omega : 1 ≤ s + f + b)]
    push_cast
    ring

/-! ## C3: prompt schema keys versus validated keys -/

/-- C3, counterexample.  For the mineral "cobalt" the schema block of the
prompt demands `relevance_to_cobalt_score`, but that key is not in the
required-key set `analyze_content` validates, so the two key sets are not
equal. -/
theorem prompt_schema_keys_cex :
    promptSchemaKeys "cobalt" ≠ requiredKeys
    ∧ "relevance_to_cobalt_score" ∈ promptSchemaKeys "cobalt"
    ∧ requiredKeys.contains "relevance_to_cobalt_score" = false := by
  refine ⟨by decide, by decide, by decide⟩

/-- C3, amended: for every mineral name, every key that the response
interpreter validates is demanded by the prompt schema block, and the
schema block additionally demands the relevance score key, which the
interpreter never checks; the inclusion is strict. -/
theorem prompt_schema_vs_required_keys : ∀ mineral : String,
    (requiredKeys.all (fun k => (promptSchemaKeys mineral).contains k)) = true
    ∧ ("relevance_to_" ++ mineral ++ "_score") ∈ promptSchemaKeys mineral
    ∧ (requiredKeys.contains ("relevance_to_" ++ mineral ++ "_score")) = false := by
  intro m
  refine ⟨rfl, ?_, ?_⟩
  · simp [promptSchemaKeys]
  · cases m
    rfl

/-! ## C2: rate limiter window bound -/

/-- One admission iteration preserves the ceiling bound on the stored
request-timestamp count. -/
theorem wifIter_len (L T : ℚ) (est : ℕ) (now : ℚ) (s : RLState)
    (hs : (s.request_timestamps.length : ℤ) ≤ ⌈L⌉) :
    (((wifIter L T est now s).1).request_timestamps.length : ℤ) ≤ ⌈L⌉ := by
  have hfil : ((pruneReq now s.request_timestamps).length : ℤ)
      ≤ (s.request_timestamps.length : ℤ) := by
    exact_mod_cast List.length_filter_le _ _
  unfold wifIter
  split_ifs with h1 h2
  · exact le_trans hfil hs
  · exact le_trans hfil hs
  · have hlt : ((pruneReq now s.request_timestamps).length : ℚ) < L := not_le.mp h1
    have hceil : ((pruneReq now s.request_timestamps).length : ℤ) < ⌈L⌉ :=
      Int.lt_ceil.mpr (by exact_mod_cast hlt)
    simp only [List.length_append, List.length_cons, List.length_nil]
    push_cast
    omega

/-- A whole run preserves the ceiling bound. -/
theorem rlRun_len (L T : ℚ) : ∀ (events : List (ℚ × ℕ)) (s : RLState),
    (s.request_timestamps.length : ℤ) ≤ ⌈L⌉ →
    ((rlRun L T events s).request_timestamps.length : ℤ) ≤ ⌈L⌉ := by
  intro events
  induction events with
  | nil => intro s hs; exact hs
  | cons e rest ih =>
    intro s hs
    exact ih _ (wifIter_len L T e.2 e.1 s hs)

/-- C2, amended: for every configuration and every sequence of admission
iterations, the number of request timestamps retained in any trailing
60-second window never exceeds the integer ceiling of the margin
`rpm_limit * 0.9` (equal to the margin itself whenever the product is an
integer, as with the default limit 800 and bound 720); and a request is
recorded only when the pruned window is strictly below both the request
margin and the token margin.  The whole loop body runs under the limiter
mutex, so sequential iteration order is faithful under concurrency. -/
theorem rate_limiter_window_bound : ∀ (rpm tpm : ℕ) (events : List (ℚ × ℕ)) (now : ℚ),
    ((pruneReq now (rlRun (rpmMargin rpm) (tpmMargin tpm) events initRL).request_timestamps).length : ℤ)
      ≤ ⌈rpmMargin rpm⌉
    ∧ ∀ (L T : ℚ) (est : ℕ) (t : ℚ) (s : RLState), (wifIter L T est t s).2 = true →
        ((pruneReq t s.request_timestamps).length : ℚ) < L
        ∧ ((tokSum (pruneTok t s.token_counts) : ℚ) + (est : ℚ)) < T := by
  intro rpm tpm events now
  constructor
  · have h0 : ((initRL.request_timestamps.length : ℤ)) ≤ ⌈rpmMargin rpm⌉ := by
      have : (0 : ℤ) ≤ ⌈rpmMargin rpm⌉ := by
        refine Int.ceil_nonneg ?_
        unfold rpmMargin
        positivity
      simpa [initRL] using this
    have hrun := rlRun_len (rpmMargin rpm) (tpmMargin tpm) events initRL h0
    refine le_trans ?_ hrun
    exact_mod_cast List.length_filter_le _ _
  · intro L T est t s h
    unfold wifIter at h
    split_ifs at h with h1 h2
    exact ⟨not_le.mp h1, not_le.mp h2⟩

/-- C2, witness: the bound and the admission condition instantiated at the
default configuration, a single admitting iteration at time 0, and the
empty starting state. -/
theorem rate_limiter_window_bound_witness :
    (((pruneReq 0 (rlRun (rpmMargin 800) (tpmMargin 900000) [(0, 1500)] initRL).request_timestamps).length : ℤ)
      ≤ ⌈rpmMargin 800⌉)
    ∧ (((pruneReq 0 initRL.request_timestamps).length : ℚ) < rpmMargin 800
       ∧ ((tokSum (pruneTok 0 initRL.token_counts) : ℚ) + ((1500 : ℕ) : ℚ)) < tpmMargin 900000) :=
  ⟨(rate_limiter_window_bound 800 900000 [(0, 1500)] 0).1,
   (rate_limiter_window_bound 800 900000 [(0, 1500)] 0).2 (rpmMargin 800) (tpmMargin 900000)
     1500 0 initRL
     (by norm_num [wifIter, pruneReq, pruneTok, tokSum, initRL, rpmMargin, tpmMargin])⟩

/-- C2, counterexample.  With a configured request limit of 1 the margin is
0.9; a single admission records one request, and 1 exceeds 0.9, so the
window count does exceed limit times 0.9 as literally stated. -/
theorem rate_limiter_margin_cex :
    ¬ (((rlRun (rpmMargin 1) (tpmMargin 900000) [(0, 1500)] initRL).request_timestamps.length : ℚ)
        ≤ rpmMargin 1) := by
  norm_num [rlRun, wifIter, pruneReq, pruneTok, tokSum, initRL, rpmMargin, tpmMargin]

/-! ## C8: immediate terminal blocks -/

/-- C8: at any attempt and with any retry budget remaining, a response with
zero candidates and an explicit block reason makes `analyze_content`
return the `prompt_blocked` placeholder at once (no sleep, no further
attempt, independent of later behaviour), and a candidate whose finish
reason is neither STOP nor MAX_TOKENS makes it return the placeholder
tagged with that lowercased finish reason at once. -/
theorem analyze_immediate_blocks : ∀ (fuel attempt : ℕ) (resps : ℕ → ApiResult),
    (resps attempt = ApiResult.noCandidates true →
      analyzeLoop (fuel + 1) attempt resps = (create_blocked_analysis "prompt_blocked", []))
    ∧ (∀ fin txt, resps attempt = ApiResult.candidate fin txt → finishOk fin = false →
        analyzeLoop (fuel + 1) attempt resps =
          (create_blocked_analysis ("safety_blocked_" ++ fin.toLower), [])) := by
  intro fuel attempt resps
  constructor
  · intro h
    simp [analyzeLoop, h]
  · intro fin txt h hfin
    simp [analyzeLoop, h, hfin]

/-- C8, witness: with the full default budget of 3 attempts, a blocked
prompt and a SAFETY finish reason each produce their placeholder on the
first attempt. -/
theorem analyze_immediate_blocks_witness :
    analyzeLoop 3 0 (fun _ => ApiResult.noCandidates true) =
      (create_blocked_analysis "prompt_blocked", [])
    ∧ analyzeLoop 3 0 (fun _ => ApiResult.candidate "SAFETY" RespText.noJson) =
        (create_blocked_analysis ("safety_blocked_" ++ "SAFETY".toLower), []) :=
  ⟨(analyze_immediate_blocks 2 0 (fun _ => ApiResult.noCandidates true)).1 rfl,
   (analyze_immediate_blocks 2 0 (fun _ => ApiResult.candidate "SAFETY" RespText.noJson)).2
     "SAFETY" RespText.noJson rfl rfl⟩

/-! ## C9: backoff schedule -/

/-- C9: for an exception on 0-based attempt `a`, a rate-limit message
sleeps exactly `min 300 (60 * 2 ^ a)` seconds before the next loop step
(even when it is the last attempt), any other message sleeps exactly
`10 * 2 ^ a` seconds when budget remains, and with the budget exhausted a
non-rate-limit exception yields the `api_error` placeholder with no
sleep. -/
theorem analyze_backoff_schedule : ∀ (r a : ℕ) (resps : ℕ → ApiResult) (msg : String),
    resps a = ApiResult.raised msg →
    (isRateLimitMsg msg = true →
      analyzeLoop (r + 1) a resps =
        ((analyzeLoop r (a + 1) resps).1,
         min 300 (60 * 2 ^ a) :: (analyzeLoop r (a + 1) resps).2))
    ∧ (isRateLimitMsg msg = false →
        (0 < r → analyzeLoop (r + 1) a resps =
          ((analyzeLoop r (a + 1) resps).1, 10 * 2 ^ a :: (analyzeLoop r (a + 1) resps).2))
        ∧ (r = 0 → analyzeLoop (r + 1) a resps = (create_blocked_analysis "api_error", []))) := by
  intro r a resps msg h
  constructor
  · intro hrate
    simp [analyzeLoop, h, hrate]
  · intro hrate
    constructor
    · intro hr
      simp [analyzeLoop, h, hrate, Nat.pos_iff_ne_zero.mp hr]
    · intro hr
      subst hr
      simp [analyzeLoop, h, hrate]

/-- C9, witness: a 429 message on the last attempt sleeps min(300, 60)
seconds and falls through; a generic message on the last attempt returns
the `api_error` placeholder without sleeping. -/
theorem analyze_backoff_schedule_witness :
    analyzeLoop 1 0 (fun _ => ApiResult.raised "HTTP 429") =
      ((analyzeLoop 0 1 (fun _ => ApiResult.raised "HTTP 429")).1,
       min 300 (60 * 2 ^ 0) :: (analyzeLoop 0 1 (fun _ => ApiResult.raised "HTTP 429")).2)
    ∧ analyzeLoop 1 0 (fun _ => ApiResult.raised "boom") =
        (create_blocked_analysis "api_error", []) :=
  ⟨(analyze_backoff_schedule 0 0 (fun _ => ApiResult.raised "HTTP 429") "HTTP 429" rfl).1
     (by decide),
   ((analyze_backoff_schedule 0 0 (fun _ => ApiResult.raised "boom") "boom" rfl).2
     (by decide)).2 rfl⟩

/-! ## C4: retry exhaustion -/

/-- When no attempt within the budget succeeds, the loop returns some
blocked placeholder. -/
theorem analyzeLoop_blocked_of_no_ok : ∀ (fuel attempt : ℕ) (resps : ℕ → ApiResult),
    (∀ i, attempt ≤ i → i < attempt + fuel → attemptOk (resps i) = false) →
    ∃ r, (analyzeLoop fuel attempt resps).1 = create_blocked_analysis r := by
  intro fuel
  induction fuel with
  | zero => intro a resps _; exact ⟨"max_retries_exceeded", rfl⟩
  | succ f ih =>
    intro a resps h
    have hshift : ∀ i, (a + 1) ≤ i → i < (a + 1) + f → attemptOk (resps i) = false := by
      intro i h1 h2; exact h i (by omega) (by omega)
    cases hr : resps a with
    | noCandidates b =>
      cases b with
      | true => exact ⟨"prompt_blocked", by simp [analyzeLoop, hr]⟩
      | false =>
        by_cases hf : f = 0
        · subst hf; exact ⟨"no_candidates", by simp [analyzeLoop, hr]⟩
        · obtain ⟨r, hrr⟩ := ih (a + 1) resps hshift
          exact ⟨r, by simp [analyzeLoop, hr, hf, hrr]⟩
    | candidate fin txt =>
      by_cases hfin : finishOk fin
      · cases txt with
        | noJson =>
          by_cases hf : f = 0
          · subst hf; exact ⟨"no_json", by simp [analyzeLoop, hr, hfin]⟩
          · obtain ⟨r, hrr⟩ := ih (a + 1) resps hshift
            exact ⟨r, by simp [analyzeLoop, hr, hfin, hf, hrr]⟩
        | badJson =>
          by_cases hf : f = 0
          · subst hf; exact ⟨"json_error", by simp [analyzeLoop, hr, hfin]⟩
          · obtain ⟨r, hrr⟩ := ih (a + 1) resps hshift
            exact ⟨r, by simp [analyzeLoop, hr, hfin, hf, hrr]⟩
        | parsed obj =>
          have hok : attemptOk (resps a) = false := h a (le_refl a) (by omega)
          rw [hr] at hok
          have hkeys : hasAllKeys obj = false := by
            simpa [attemptOk, hfin] using hok
          by_cases hf : f = 0
          · subst hf; exact ⟨"invalid_structure", by simp [analyzeLoop, hr, hfin, hkeys]⟩
          · obtain ⟨r, hrr⟩ := ih (a + 1) resps hshift
            exact ⟨r, by simp [analyzeLoop, hr, hfin, hkeys, hf, hrr]⟩
      · exact ⟨"safety_blocked_" ++ fin.toLower, by simp [analyzeLoop, hr, hfin]⟩
    | raised msg =>
      by_cases hrl : isRateLimitMsg msg
      · obtain ⟨r, hrr⟩ := ih (a + 1) resps hshift
        exact ⟨r, by simp [analyzeLoop, hr, hrl, hrr]⟩
      · by_cases hf : f = 0
        · subst hf; exact ⟨"api_error", by simp [analyzeLoop, hr, hrl]⟩
        · obtain ⟨r, hrr⟩ := ih (a + 1) resps hshift
          exact ⟨r, by simp [analyzeLoop, hr, hrl, hf, hrr]⟩

/-- A retryable attempt outcome with budget remaining advances the loop by
one attempt without changing the eventual analysis. -/
theorem analyzeLoop_step_retry : ∀ (f a : ℕ) (resps : ℕ → ApiResult),
    0 < f → willRetry (resps a) = true →
    (analyzeLoop (f + 1) a resps).1 = (analyzeLoop f (a + 1) resps).1 := by
  intro f a resps hf hw
  have hfz : ¬ f = 0 := Nat.pos_iff_ne_zero.mp hf
  cases hr : resps a with
  | noCandidates b =>
    cases b with
    | true => rw [hr] at hw; simp [willRetry] at hw
    | false => simp [analyzeLoop, hr, hfz]
  | candidate fin txt =>
    rw [hr] at hw
    cases txt with
    | noJson =>
      simp only [willRetry] at hw
      simp [analyzeLoop, hr, hw, hfz]
    | badJson =>
      simp only [willRetry] at hw
      simp [analyzeLoop, hr, hw, hfz]
    | parsed obj =>
      simp only [willRetry, Bool.and_eq_true, Bool.not_eq_true'] at hw
      simp [analyzeLoop, hr, hw.1, hw.2, hfz]
  | raised msg =>
    by_cases hrl : isRateLimitMsg msg
    · simp [analyzeLoop, hr, hrl]
    · simp [analyzeLoop, hr, hrl, hfz]

/-- The rate-limit exception branch advances the loop even on the last
attempt: it is the only branch through which the `for` loop can end. -/
theorem analyzeLoop_step_fall : ∀ (f a : ℕ) (resps : ℕ → ApiResult),
    fallsThrough (resps a) = true →
    (analyzeLoop (f + 1) a resps).1 = (analyzeLoop f (a + 1) resps).1 := by
  intro f a resps hw
  cases hr : resps a with
  | noCandidates b => rw [hr] at hw; simp [fallsThrough] at hw
  | candidate fin txt => rw [hr] at hw; simp [fallsThrough] at hw
  | raised msg =>
    rw [hr] at hw
    simp only [fallsThrough] at hw
    simp [analyzeLoop, hr, hw]

/-- C4, counterexample.  Three generic API exceptions exhaust the budget,
and the result is the placeholder tagged `api_error`, not
`max_retries_exceeded`: the claimed reason code is wrong for this
behaviour. -/
theorem analyze_exhaustion_cex :
    keywordsReason? (analyze_content (fun _ => ApiResult.raised "boom")) = some "api_error"
    ∧ keywordsReason? (create_blocked_analysis "max_retries_exceeded") =
        some "max_retries_exceeded"
    ∧ analyze_content (fun _ => ApiResult.raised "boom") ≠
        create_blocked_analysis "max_retries_exceeded" := by
  refine ⟨rfl, rfl, ?_⟩
  intro hval
  have h2 := congrArg keywordsReason? hval
  rw [keywordsReason_blocked] at h2
  rw [show keywordsReason? (analyze_content (fun _ => ApiResult.raised "boom"))
        = some "api_error" from rfl] at h2
  exact absurd (Option.some.inj h2) (by decide)

/-- C4, amended: with `max_retries = 3`, if all three attempts complete
without an OK result then `analyze_content` returns a blocked placeholder
(its topic classification is the sentinel), and the placeholder reason is
`max_retries_exceeded` when the first two attempts are retryable and the
third raises a rate-limit exception — the only branch that lets the loop
fall through; other exhausted behaviours return their specific reason
codes such as `api_error` or `no_json`. -/
theorem analyze_exhaustion_blocked : ∀ resps : ℕ → ApiResult,
    (∀ i, i < 3 → attemptOk (resps i) = false) →
    (pyGet (analyze_content resps) "topic_classification" = some (Json.str "blocked"))
    ∧ (willRetry (resps 0) = true → willRetry (resps 1) = true →
        fallsThrough (resps 2) = true →
        analyze_content resps = create_blocked_analysis "max_retries_exceeded") := by
  intro resps h
  constructor
  · obtain ⟨r, hr⟩ := analyzeLoop_blocked_of_no_ok 3 0 resps
      (by intro i h1 h2; exact h i (by omega))
    unfold analyze_content
    rw [hr]
    exact create_blocked_topic r
  · intro h0 h1 h2
    show (analyzeLoop 3 0 resps).1 = create_blocked_analysis "max_retries_exceeded"
    calc (analyzeLoop 3 0 resps).1
        = (analyzeLoop 2 1 resps).1 := analyzeLoop_step_retry 2 0 resps (by omega) h0
      _ = (analyzeLoop 1 2 resps).1 := analyzeLoop_step_retry 1 1 resps (by omega) h1
      _ = (analyzeLoop 0 3 resps).1 := analyzeLoop_step_fall 0 2 resps h2
      _ = create_blocked_analysis "max_retries_exceeded" := rfl

/-- C4, witness: two candidates without extractable JSON followed by a
rate-limited exception exhaust the budget and produce the
`max_retries_exceeded` placeholder, whose topic is the sentinel. -/
theorem analyze_exhaustion_blocked_witness :
    pyGet (analyze_content w4resps) "topic_classification" = some (Json.str "blocked")
    ∧ analyze_content w4resps = create_blocked_analysis "max_retries_exceeded" :=
  ⟨(analyze_exhaustion_blocked w4resps (by decide)).1,
   (analyze_exhaustion_blocked w4resps (by decide)).2 (by decide) (by decide) (by decide)⟩

/-! ## C10: totality of the per-item pipeline -/

/-- A parsed object that passes the required-key check is a non-empty
dict. -/
theorem hasAllKeys_not_empty : ∀ obj : PyDict, hasAllKeys obj = true → obj.isEmpty = false := by
  intro obj h
  cases obj with
  | nil => exact absurd h (by decide)
  | cons a l => rfl

/-- Every value the retry loop can return is a non-empty (truthy) dict. -/
theorem analyzeLoop_not_empty : ∀ (fuel attempt : ℕ) (resps : ℕ → ApiResult),
    ((analyzeLoop fuel attempt resps).1).isEmpty = false := by
  intro fuel
  induction fuel with
  | zero => intro a resps; exact create_blocked_not_empty _
  | succ f ih =>
    intro a resps
    cases hr : resps a with
    | noCandidates b =>
      cases b with
      | true =>
        simp only [analyzeLoop, hr]
        exact create_blocked_not_empty _
      | false =>
        simp only [analyzeLoop, hr]
        split_ifs
        · exact create_blocked_not_empty _
        · exact ih _ _
    | candidate fin txt =>
      cases txt with
      | noJson =>
        simp only [analyzeLoop, hr]
        split_ifs
        · exact create_blocked_not_empty _
        · exact ih _ _
        · exact create_blocked_not_empty _
      | badJson =>
        simp only [analyzeLoop, hr]
        split_ifs
        · exact create_blocked_not_empty _
        · exact ih _ _
        · exact create_blocked_not_empty _
      | parsed obj =>
        simp only [analyzeLoop, hr]
        split_ifs with hfin hkeys hf
        · exact hasAllKeys_not_empty obj hkeys
        · exact create_blocked_not_empty _
        · exact ih _ _
        · exact create_blocked_not_empty _
    | raised msg =>
      simp only [analyzeLoop, hr]
      split_ifs
      · exact ih _ _
      · exact create_blocked_not_empty _
      · exact ih _ _

/-- `analyze_content` always returns a non-empty dict. -/
theorem analyze_content_not_empty (resps : ℕ → ApiResult) :
    (analyze_content resps).isEmpty = false :=
  analyzeLoop_not_empty 3 0 resps

/-- The failure counter is untouched by folding completed results that are
all `some`. -/
theorem foldl_recordResult_failed : ∀ (rs : List (Json × Option PyDict)) (acc : RunOutcome),
    (∀ r ∈ rs, r.2.isSome = true) → (rs.foldl recordResult acc).failed = acc.failed := by
  intro rs
  induction rs with
  | nil => intro acc _; rfl
  | cons r rest ih =>
    intro acc h
    have hr : r.2.isSome = true := h r (List.mem_cons_self r rest)
    have hrec : (recordResult acc r).failed = acc.failed := by
      obtain ⟨line, hline⟩ := Option.isSome_iff_exists.mp hr
      simp only [recordResult, hline]
      split_ifs <;> rfl
    rw [List.foldl_cons]
    calc (rest.foldl recordResult (recordResult acc r)).failed
        = (recordResult acc r).failed :=
          ih (recordResult acc r) (fun x hx => h x (List.mem_cons_of_mem _ hx))
      _ = acc.failed := hrec

/-- C10: for every per-item API behaviour, `analyze_content` returns a
non-empty dict (never None, never an exception in the model, whose oracle
covers every return value and every `Exception`-derived raise of the try
block), so `_process_single_item` always returns a result record and the
failed-result branch of `_process_items` never fires: the failed counter
of a run is always 0. -/
theorem analyze_total_results : ∀ (oracle : PyDict → ℕ → ApiResult) (item : PyDict)
    (items : List PyDict) (enriched : List (Json × Json)),
    (analyze_content (oracle item)).isEmpty = false
    ∧ (_process_single_item oracle item).2.isSome = true
    ∧ (_process_items oracle items enriched).failed = 0 := by
  intro oracle item items enriched
  have h2 : ∀ it : PyDict, (_process_single_item oracle it).2.isSome = true := by
    intro it
    simp [_process_single_item, analyze_content_not_empty]
  refine ⟨analyze_content_not_empty _, h2 item, ?_⟩
  unfold _process_items
  split_ifs with he
  · rfl
  · have hall : ∀ r ∈ (pendingItems items enriched).map (_process_single_item oracle),
        r.2.isSome = true := by
      intro r hrm
      obtain ⟨it, hit, hrfl⟩ := List.mem_map.mp hrm
      rw [← hrfl]
      exact h2 it
    rw [foldl_recordResult_failed _ _ hall]
    rfl

/-! ## C1: idempotent skip of enriched items -/

/-- The api-call list is fixed before the collection fold and never
modified by it. -/
theorem foldl_recordResult_apiCalls : ∀ (rs : List (Json × Option PyDict)) (acc : RunOutcome),
    (rs.foldl recordResult acc).apiCalls = acc.apiCalls := by
  intro rs
  induction rs with
  | nil => intro acc; rfl
  | cons r rest ih =>
    intro acc
    have hrec : (recordResult acc r).apiCalls = acc.apiCalls := by
      cases hr2 : r.2 with
      | none => simp [recordResult, hr2]
      | some line =>
        simp only [recordResult, hr2]
        split_ifs <;> rfl
    rw [List.foldl_cons, ih, hrec]

/-- C1: the engine analyzes exactly the pending items — those whose id is
not a key of the enriched set — and when every item id is already
enriched it returns the inert outcome: the output log is never opened, no
line is appended, no API call is issued, and no counter moves. -/
theorem process_items_skips_enriched : ∀ (oracle : PyDict → ℕ → ApiResult)
    (items : List PyDict) (enriched : List (Json × Json)),
    ((∀ it ∈ items, enriched.any (fun p => Json.keyEq p.1 (dictGetD it "id")) = true) →
      _process_items oracle items enriched = initOutcome)
    ∧ (_process_items oracle items enriched).apiCalls =
        (pendingItems items enriched).map (fun it => dictGetD it "id") := by
  intro oracle items enriched
  have hnil : (∀ it ∈ items, enriched.any (fun p => Json.keyEq p.1 (dictGetD it "id")) = true) →
      pendingItems items enriched = [] := by
    intro h
    rw [pendingItems, List.filter_eq_nil_iff]
    intro it hit
    simp [h it hit]
  constructor
  · intro h
    unfold _process_items
    rw [hnil h]
    rfl
  · unfold _process_items
    split_ifs with he
    · rw [List.isEmpty_iff.mp he]
      rfl
    · rw [foldl_recordResult_apiCalls]

/-- C1, witness: one post whose id "a" is already in the enriched set
yields the inert outcome and an empty api-call list. -/
theorem process_items_skips_enriched_witness :
    _process_items (fun _ _ => ApiResult.noCandidates true)
      [[("id", Json.str "a"), ("title", Json.str "t"), ("selftext", Json.str "s")]]
      [(Json.str "a", Json.null)] = initOutcome
    ∧ (_process_items (fun _ _ => ApiResult.noCandidates true)
        [[("id", Json.str "a"), ("title", Json.str "t"), ("selftext", Json.str "s")]]
        [(Json.str "a", Json.null)]).apiCalls =
      (pendingItems [[("id", Json.str "a"), ("title", Json.str "t"), ("selftext", Json.str "s")]]
        [(Json.str "a", Json.null)]).map (fun it => dictGetD it "id") :=
  ⟨(process_items_skips_enriched (fun _ _ => ApiResult.noCandidates true)
      [[("id", Json.str "a"), ("title", Json.str "t"), ("selftext", Json.str "s")]]
      [(Json.str "a", Json.null)]).1 (by decide),
   (process_items_skips_enriched (fun _ _ => ApiResult.noCandidates true)
      [[("id", Json.str "a"), ("title", Json.str "t"), ("selftext", Json.str "s")]]
      [(Json.str "a", Json.null)]).2⟩

/-! ## C6: checkpoint replay tolerance -/

/-- C6, counterexample.  The line "5" parses as JSON but is not an object;
`'id' in 5` raises an uncaught TypeError, so `load_enriched_data` does
raise on a parsed line missing the id key.  An object line whose id value
is the unhashable list [1] likewise raises, at the dict assignment. -/
theorem load_enriched_cex :
    load_enriched_data [ParsedLine.parsed (Json.num 5)] = Except.error PyErr.typeError
    ∧ load_enriched_data [ParsedLine.parsed (Json.obj [("id", Json.arr [Json.num 1])])] =
        Except.error PyErr.typeError := ⟨rfl, rfl⟩

/-- A line satisfying `lineGood` is processed without raising, producing
exactly the skip-or-insert step of the spec reading. -/
theorem loadLine_good (d : List (Json × Json)) (l : ParsedLine) (h : lineGood l = true) :
    loadLine d l = Except.ok (loadOkStep d l) := by
  cases l with
  | blank => rfl
  | badJson => rfl
  | parsed j =>
    cases j with
    | obj fields =>
      cases hf : fields.find? (fun p => p.1 == "id") with
      | none => simp [loadLine, loadOkStep, hf]
      | some kv =>
        have hhash : kv.2.pyHashable = true := by simpa [lineGood, hf] using h
        simp [loadLine, loadOkStep, hf, hhash]
    | null => simp [lineGood] at h
    | bool b => simp [lineGood] at h
    | num q => simp [lineGood] at h
    | str s => simp [lineGood] at h
    | arr xs => simp [lineGood] at h

/-- A line satisfying `lineRaises` makes the loop body raise TypeError. -/
theorem loadLine_raises (d : List (Json × Json)) (l : ParsedLine) (h : lineRaises l = true) :
    loadLine d l = Except.error PyErr.typeError := by
  cases l with
  | blank => simp [lineRaises] at h
  | badJson => simp [lineRaises] at h
  | parsed j =>
    cases j with
    | obj fields =>
      cases hf : fields.find? (fun p => p.1 == "id") with
      | none => simp [lineRaises, hf] at h
      | some kv =>
        have hhash : kv.2.pyHashable = false := by simpa [lineRaises, hf] using h
        simp [loadLine, hf, hhash]
    | arr xs =>
      have hx : xs.any (fun x => match x with | Json.str s => s == "id" | _ => false) = true := by
        simpa [lineRaises] using h
      simp [loadLine, hx]
    | str s =>
      have hs : strContains s "id" = true := by simpa [lineRaises] using h
      simp [loadLine, hs]
    | num q => rfl
    | bool b => rfl
    | null => rfl

/-- A raising line reached after any run of good lines aborts the whole
load with TypeError, whatever follows it. -/
theorem loadAux_raises : ∀ (pre : List ParsedLine) (d : List (Json × Json))
    (bad : ParsedLine) (post : List ParsedLine),
    (∀ l ∈ pre, lineGood l = true) → lineRaises bad = true →
    loadAux d (pre ++ bad :: post) = Except.error PyErr.typeError := by
  intro pre
  induction pre with
  | nil =>
    intro d bad post _ hbad
    rw [List.nil_append]
    simp only [loadAux, loadLine_raises d bad hbad]
  | cons l rest ih =>
    intro d bad post h hbad
    have hl : lineGood l = true := h l (List.mem_cons_self _ _)
    rw [List.cons_append]
    simp only [loadAux, loadLine_good d l hl]
    exact ih (loadOkStep d l) bad post (fun x hx => h x (List.mem_cons_of_mem _ hx)) hbad

/-- C6, amended: `load_enriched_data` never raises on blank lines, on
lines that fail to parse as JSON, or on parsed object lines whose id
value (if present) is hashable; it skips the blank, unparseable, and
idless lines and returns the id-to-record mapping folded from the
remaining well-formed object lines.  But it does raise an uncaught
TypeError as soon as it reaches a line parsing to a number, boolean, or
null (at the membership test), a list containing the element "id" or a
string containing the substring "id" (at the subscript), or an object
whose id value is unhashable (at the dict assignment). -/
theorem load_enriched_tolerant :
    (∀ lines : List ParsedLine, (∀ l ∈ lines, lineGood l = true) →
      load_enriched_data lines = Except.ok (loadOk lines))
    ∧ (∀ (pre post : List ParsedLine) (bad : ParsedLine),
        (∀ l ∈ pre, lineGood l = true) → lineRaises bad = true →
        load_enriched_data (pre ++ bad :: post) = Except.error PyErr.typeError) := by
  constructor
  · suffices haux : ∀ (lines : List ParsedLine) (d : List (Json × Json)),
        (∀ l ∈ lines, lineGood l = true) →
        loadAux d lines = Except.ok (lines.foldl loadOkStep d) by
      intro lines h
      exact haux lines [] h
    intro lines
    induction lines with
    | nil => intro d _; rfl
    | cons l rest ih =>
      intro d h
      have hl : lineGood l = true := h l (List.mem_cons_self _ _)
      simp only [loadAux, loadLine_good d l hl, List.foldl_cons]
      exact ih (loadOkStep d l) (fun x hx => h x (List.mem_cons_of_mem _ hx))
  · intro pre post bad h hbad
    exact loadAux_raises pre [] bad post h hbad

/-- C6, witness: a blank line, a malformed line, a record, and an idless
object load without error into the mapping of the record lines, and
appending an unhashable-id object line to the same good prefix aborts the
load with TypeError. -/
theorem load_enriched_tolerant_witness :
    ((∀ l ∈ w6lines, lineGood l = true)
      ∧ load_enriched_data w6lines = Except.ok (loadOk w6lines))
    ∧ load_enriched_data
        (w6lines ++ ParsedLine.parsed (Json.obj [("id", Json.arr [Json.num 1])]) :: []) =
      Except.error PyErr.typeError :=
  ⟨⟨by decide, load_enriched_tolerant.1 w6lines (by decide)⟩,
   load_enriched_tolerant.2 w6lines []
     (ParsedLine.parsed (Json.obj [("id", Json.arr [Json.num 1])])) (by decide) (by decide)⟩

/-! ## C7: clean_text sanitization

The properties of the cleaned text are settled through the exact pass
structure of `clean_text`: URL removal, whitespace collapse, marker
removal, strip, truncate.  The central lemma is that the URL-removal pass
leaves no occurrence of `http(s)://` followed by a non-whitespace
character; its proof tracks the non-whitespace front of the scanned list
through the scanner. -/

theorem drop_length_takeWhile (p : Char → Bool) : ∀ l : List Char,
    l.drop (l.takeWhile p).length = l.dropWhile p := by
  intro l
  induction l with
  | nil => rfl
  | cons c t ih =>
    by_cases hc : p c
    · rw [List.takeWhile_cons_of_pos hc, List.dropWhile_cons_of_pos hc,
          List.length_cons, List.drop_succ_cons]
      exact ih
    · rw [List.takeWhile_cons_of_neg hc, List.dropWhile_cons_of_neg hc]
      rfl

theorem takeWhile_dropWhile_nil (p : Char → Bool) : ∀ l : List Char,
    (l.dropWhile p).takeWhile p = [] := by
  intro l
  induction l with
  | nil => rfl
  | cons c t ih =>
    by_cases hc : p c
    · rw [List.dropWhile_cons_of_pos hc]
      exact ih
    · rw [List.dropWhile_cons_of_neg hc, List.takeWhile_cons_of_neg hc]

theorem all_prefix_takeWhile (p : Char → Bool) : ∀ (A l : List Char),
    A.all p = true → A <+: l → A <+: l.takeWhile p := by
  intro A
  induction A with
  | nil => intro l _ _; exact List.nil_prefix
  | cons a A' ih =>
    intro l hall hpre
    obtain ⟨t, ht⟩ := hpre
    cases l with
    | nil => exact absurd ht (by simp)
    | cons b m =>
      rw [List.cons_append] at ht
      injection ht with h1 h2
      subst h1
      rw [List.all_cons] at hall
      rw [List.takeWhile_cons_of_pos (Bool.and_elim_left hall)]
      refine List.cons_prefix_cons.mpr ⟨rfl, ih m (Bool.and_elim_right hall) ⟨t, h2⟩⟩

theorem takeWhile_eq_cons (p : Char → Bool) (l : List Char) (d : Char) (rest : List Char)
    (h : l.takeWhile p = d :: rest) : p d = true ∧ ∃ m, l = d :: m := by
  cases l with
  | nil => simp at h
  | cons c m =>
    by_cases hc : p c
    · rw [List.takeWhile_cons_of_pos hc] at h
      injection h with h1 _
      subst h1
      exact ⟨hc, m, rfl⟩
    · rw [List.takeWhile_cons_of_neg hc] at h
      exact absurd h (by simp)

theorem url_some_iff : ∀ l : List Char, (urlMatchLen l).isSome = true ↔
    ∃ d, (("https://".data ++ [d]) <+: l.takeWhile (fun c => !isPySpace c)
       ∨ ("http://".data ++ [d]) <+: l.takeWhile (fun c => !isPySpace c)) := by
  intro l
  constructor
  · intro h
    unfold urlMatchLen at h
    by_cases h1 : ("https://".data).isPrefixOf l
    · rw [if_pos h1] at h
      by_cases h2 : ((l.drop 8).takeWhile (fun c => !isPySpace c)).length = 0
      · rw [if_pos h2] at h
        exact absurd h (by simp)
      · have hne : (l.drop 8).takeWhile (fun c => !isPySpace c) ≠ [] := by
          intro hh
          exact h2 (by rw [hh]; rfl)
        obtain ⟨d, rest, hd⟩ := List.exists_cons_of_ne_nil hne
        obtain ⟨hPd, m, hm⟩ := takeWhile_eq_cons _ _ _ _ hd
        obtain ⟨t1, ht1⟩ := List.isPrefixOf_iff_prefix.mp h1
        have hdrop : l.drop 8 = t1 := by
          rw [← ht1]
          exact List.drop_left "https://".data t1
        rw [hdrop] at hm
        refine ⟨d, Or.inl ?_⟩
        apply all_prefix_takeWhile
        · have hs : ("https://".data).all (fun c => !isPySpace c) = true := by decide
          rw [List.all_append, hs, Bool.true_and]
          simp [hPd]
        · refine ⟨m, ?_⟩
          rw [← ht1, hm]
          simp
    · rw [if_neg h1] at h
      by_cases h1b : ("http://".data).isPrefixOf l
      · rw [if_pos h1b] at h
        by_cases h2 : ((l.drop 7).takeWhile (fun c => !isPySpace c)).length = 0
        · rw [if_pos h2] at h
          exact absurd h (by simp)
        · have hne : (l.drop 7).takeWhile (fun c => !isPySpace c) ≠ [] := by
            intro hh
            exact h2 (by rw [hh]; rfl)
          obtain ⟨d, rest, hd⟩ := List.exists_cons_of_ne_nil hne
          obtain ⟨hPd, m, hm⟩ := takeWhile_eq_cons _ _ _ _ hd
          obtain ⟨t1, ht1⟩ := List.isPrefixOf_iff_prefix.mp h1b
          have hdrop : l.drop 7 = t1 := by
            rw [← ht1]
            exact List.drop_left "http://".data t1
          rw [hdrop] at hm
          refine ⟨d, Or.inr ?_⟩
          apply all_prefix_takeWhile
          · have hs : ("http://".data).all (fun c => !isPySpace c) = true := by decide
            rw [List.all_append, hs, Bool.true_and]
            simp [hPd]
          · refine ⟨m, ?_⟩
            rw [← ht1, hm]
            simp
      · rw [if_neg h1b] at h
        exact absurd h (by simp)
  · rintro ⟨d, hca | hca⟩
    · have hAl : ("https://".data ++ [d]) <+: l :=
        hca.trans (List.takeWhile_prefix _)
      have hPd : (fun c => !isPySpace c) d = true :=
        @List.mem_takeWhile_imp _ (fun c => !isPySpace c) l d
          (hca.subset (List.mem_append_right _ (List.mem_singleton_self d)))
      obtain ⟨t, ht⟩ := hAl
      have hpre : ("https://".data).isPrefixOf l := by
        rw [List.isPrefixOf_iff_prefix]
        exact ⟨d :: t, by rw [← ht]; simp⟩
      have hdrop : l.drop 8 = d :: t := by
        rw [← ht, List.append_assoc]
        simp [List.drop_left "https://".data ([d] ++ t)]
      unfold urlMatchLen
      rw [if_pos hpre, hdrop]
      rw [List.takeWhile_cons, show (!isPySpace d) = true from hPd]
      simp
    · have hAl : ("http://".data ++ [d]) <+: l :=
        hca.trans (List.takeWhile_prefix _)
      have hPd : (fun c => !isPySpace c) d = true :=
        @List.mem_takeWhile_imp _ (fun c => !isPySpace c) l d
          (hca.subset (List.mem_append_right _ (List.mem_singleton_self d)))
      obtain ⟨t, ht⟩ := hAl
      have hpre7 : ("http://".data).isPrefixOf l := by
        rw [List.isPrefixOf_iff_prefix]
        exact ⟨d :: t, by rw [← ht]; simp⟩
      have hdrop : l.drop 7 = d :: t := by
        rw [← ht, List.append_assoc]
        simp [List.drop_left "http://".data ([d] ++ t)]
      by_cases hps : ("https://".data).isPrefixOf l
      · exfalso
        have h8 : ("https://".data) <+: l := List.isPrefixOf_iff_prefix.mp hps
        have h8b : ("https://".data) <+: ("http://".data ++ [d]) :=
          List.prefix_of_prefix_length_le h8 ⟨t, ht⟩ (by simp)
        have heq : ("https://".data) = ("http://".data ++ [d]) :=
          h8b.eq_of_length (by simp)
        have h4 : some 's' = some ':' := congrArg (fun x => (x.drop 4).head?) heq
        exact absurd h4 (by decide)
      · unfold urlMatchLen
        rw [if_neg hps, if_pos hpre7, hdrop]
        rw [List.takeWhile_cons, show (!isPySpace d) = true from hPd]
        simp

theorem url_some_drop (l : List Char) (n : ℕ) (h : urlMatchLen l = some n) :
    (l.drop n).takeWhile (fun c => !isPySpace c) = [] := by
  unfold urlMatchLen at h
  by_cases h1 : ("https://".data).isPrefixOf l
  · rw [if_pos h1] at h
    by_cases h2 : ((l.drop 8).takeWhile (fun c => !isPySpace c)).length = 0
    · rw [if_pos h2] at h
      cases h
    · rw [if_neg h2] at h
      injection h with hn
      subst hn
      have e1 : l.drop (8 + ((l.drop 8).takeWhile (fun c => !isPySpace c)).length)
          = (l.drop 8).drop ((l.drop 8).takeWhile (fun c => !isPySpace c)).length :=
        (List.drop_drop _ 8 l).symm
      rw [e1, drop_length_takeWhile]
      exact takeWhile_dropWhile_nil _ _
  · rw [if_neg h1] at h
    by_cases h1b : ("http://".data).isPrefixOf l
    · rw [if_pos h1b] at h
      by_cases h2 : ((l.drop 7).takeWhile (fun c => !isPySpace c)).length = 0
      · rw [if_pos h2] at h
        cases h
      · rw [if_neg h2] at h
        injection h with hn
        subst hn
        have e1 : l.drop (7 + ((l.drop 7).takeWhile (fun c => !isPySpace c)).length)
            = (l.drop 7).drop ((l.drop 7).takeWhile (fun c => !isPySpace c)).length :=
          (List.drop_drop _ 7 l).symm
        rw [e1, drop_length_takeWhile]
        exact takeWhile_dropWhile_nil _ _
    · rw [if_neg h1b] at h
      cases h

theorem url_some_bounds (l : List Char) (n : ℕ) (h : urlMatchLen l = some n) :
    1 ≤ n ∧ n ≤ l.length := by
  unfold urlMatchLen at h
  by_cases h1 : ("https://".data).isPrefixOf l
  · rw [if_pos h1] at h
    by_cases h2 : ((l.drop 8).takeWhile (fun c => !isPySpace c)).length = 0
    · rw [if_pos h2] at h
      cases h
    · rw [if_neg h2] at h
      injection h with hn
      have h8 : 8 ≤ l.length := by
        have hle := List.IsPrefix.length_le (List.isPrefixOf_iff_prefix.mp h1)
        have he : ("https://".data).length = 8 := rfl
        omega
      have hrun : ((l.drop 8).takeWhile (fun c => !isPySpace c)).length ≤ (l.drop 8).length :=
        (List.takeWhile_prefix _).length_le
      have hdl : (l.drop 8).length = l.length - 8 := List.length_drop 8 l
      omega
  · rw [if_neg h1] at h
    by_cases h1b : ("http://".data).isPrefixOf l
    · rw [if_pos h1b] at h
      by_cases h2 : ((l.drop 7).takeWhile (fun c => !isPySpace c)).length = 0
      · rw [if_pos h2] at h
        cases h
      · rw [if_neg h2] at h
        injection h with hn
        have h7 : 7 ≤ l.length := by
          have hle := List.IsPrefix.length_le (List.isPrefixOf_iff_prefix.mp h1b)
          have he : ("http://".data).length = 7 := rfl
          omega
        have hrun : ((l.drop 7).takeWhile (fun c => !isPySpace c)).length ≤ (l.drop 7).length :=
          (List.takeWhile_prefix _).length_le
        have hdl : (l.drop 7).length = l.length - 7 := List.length_drop 7 l
        omega
    · rw [if_neg h1b] at h
      cases h

theorem nwp_removeUrlsF (fuel : ℕ) : ∀ cs : List Char, cs.length ≤ fuel →
    (removeUrlsF fuel cs).takeWhile (fun c => !isPySpace c)
      <+: cs.takeWhile (fun c => !isPySpace c) := by
  induction fuel with
  | zero =>
    intro cs h
    have : cs = [] := List.length_eq_zero.mp (Nat.le_zero.mp h)
    subst this
    exact List.nil_prefix
  | succ f ih =>
    intro cs h
    cases cs with
    | nil => exact List.nil_prefix
    | cons c t =>
      cases hm : urlMatchLen (c :: t) with
      | some n =>
        obtain ⟨hn1, hn2⟩ := url_some_bounds _ _ hm
        have hlen : ((c :: t).drop n).length ≤ f := by
          rw [List.length_drop]
          simp only [List.length_cons] at h ⊢
          omega
        have hQ := ih ((c :: t).drop n) hlen
        rw [url_some_drop _ _ hm] at hQ
        have hz : (removeUrlsF f ((c :: t).drop n)).takeWhile (fun c => !isPySpace c) = [] :=
          List.prefix_nil.mp hQ
        simp only [removeUrlsF, hm]
        rw [hz]
        exact List.nil_prefix
      | none =>
        simp only [removeUrlsF, hm]
        by_cases hc : isPySpace c
        · rw [List.takeWhile_cons, List.takeWhile_cons, show (!isPySpace c) = false by simp [hc]]
          exact List.nil_prefix
        · rw [List.takeWhile_cons, List.takeWhile_cons, show (!isPySpace c) = true by simp [hc]]
          simp only [if_true]
          refine List.cons_prefix_cons.mpr ⟨rfl, ?_⟩
          refine ih t ?_
          simp only [List.length_cons] at h
          omega

theorem hasUrl_removeUrlsF (fuel : ℕ) : ∀ cs : List Char, cs.length ≤ fuel →
    hasUrl (removeUrlsF fuel cs) = false := by
  induction fuel with
  | zero =>
    intro cs h
    have : cs = [] := List.length_eq_zero.mp (Nat.le_zero.mp h)
    subst this
    rfl
  | succ f ih =>
    intro cs h
    cases cs with
    | nil => rfl
    | cons c t =>
      cases hm : urlMatchLen (c :: t) with
      | some n =>
        obtain ⟨hn1, hn2⟩ := url_some_bounds _ _ hm
        have hlen : ((c :: t).drop n).length ≤ f := by
          rw [List.length_drop]
          simp only [List.length_cons] at h ⊢
          omega
        simp only [removeUrlsF, hm]
        exact ih _ hlen
      | none =>
        have ht : t.length ≤ f := by
          simp only [List.length_cons] at h
          omega
        have h1 : hasUrl (removeUrlsF f t) = false := ih t ht
        have hQ : (removeUrlsF (f + 1) (c :: t)).takeWhile (fun c => !isPySpace c)
            <+: (c :: t).takeWhile (fun c => !isPySpace c) := nwp_removeUrlsF (f + 1) (c :: t) h
        rw [show removeUrlsF (f + 1) (c :: t) = c :: removeUrlsF f t from by
          simp only [removeUrlsF, hm]] at hQ
        have h2 : (urlMatchLen (c :: removeUrlsF f t)).isSome = false := by
          by_contra hcon
          rw [Bool.not_eq_false] at hcon
          obtain ⟨d, hd⟩ := (url_some_iff _).mp hcon
          have hd2 : (("https://".data ++ [d]) <+: (c :: t).takeWhile (fun c => !isPySpace c)
              ∨ ("http://".data ++ [d]) <+: (c :: t).takeWhile (fun c => !isPySpace c)) := by
            rcases hd with hd | hd
            · exact Or.inl (hd.trans hQ)
            · exact Or.inr (hd.trans hQ)
          have hsome : (urlMatchLen (c :: t)).isSome = true := (url_some_iff _).mpr ⟨d, hd2⟩
          rw [hm] at hsome
          cases hsome
        simp only [removeUrlsF, hm, hasUrl]
        rw [h1, h2]
        rfl

theorem removeUrls_no_url (cs : List Char) : hasUrl (removeUrls cs) = false :=
  hasUrl_removeUrlsF cs.length cs (le_refl _)

theorem allWsSpace_collapse : ∀ (cs : List Char) (b : Bool),
    allWsSpace (collapseWsF b cs) = true := by
  intro cs
  induction cs with
  | nil => intro b; rfl
  | cons c t ih =>
    intro b
    simp only [collapseWsF]
    by_cases hc : isPySpace c
    · rw [if_pos hc]
      cases b with
      | true => exact ih true
      | false =>
        simp only [Bool.false_eq_true, if_false, allWsSpace, List.all_cons]
        rw [show ((!isPySpace ' ') || (' ' == ' ')) = true from by decide]
        exact ih true
    · rw [if_neg hc]
      simp only [allWsSpace, List.all_cons]
      rw [show isPySpace c = false from by simp [hc], show ((!false) || (c == ' ')) = true from by simp]
      exact ih false

theorem collapse_head : ∀ (cs : List Char) (c : Char),
    (collapseWsF true cs).head? = some c → isPySpace c = false := by
  intro cs
  induction cs with
  | nil => intro c h; cases h
  | cons a t ih =>
    intro c h
    simp only [collapseWsF] at h
    by_cases ha : isPySpace a
    · rw [if_pos ha] at h
      simp only [if_true] at h
      exact ih c h
    · rw [if_neg ha] at h
      injection h with h1
      subst h1
      simp [ha]

theorem noAdjWs_cons : ∀ (c : Char) (l : List Char), noAdjWs l = true →
    (∀ x, l.head? = some x → (isPySpace c && isPySpace x) = false) →
    noAdjWs (c :: l) = true := by
  intro c l hl hx
  cases l with
  | nil => rfl
  | cons x r =>
    simp only [noAdjWs, Bool.and_eq_true]
    exact ⟨by rw [hx x rfl]; rfl, hl⟩

theorem noAdjWs_collapse : ∀ (cs : List Char) (b : Bool),
    noAdjWs (collapseWsF b cs) = true := by
  intro cs
  induction cs with
  | nil => intro b; rfl
  | cons c t ih =>
    intro b
    simp only [collapseWsF]
    by_cases hc : isPySpace c
    · rw [if_pos hc]
      cases b with
      | true => exact ih true
      | false =>
        simp only [Bool.false_eq_true, if_false]
        refine noAdjWs_cons ' ' _ (ih true) ?_
        intro x hx
        rw [collapse_head t x hx]
        simp
    · rw [if_neg hc]
      refine noAdjWs_cons c _ (ih false) ?_
      intro x hx
      rw [show isPySpace c = false from by simp [hc]]
      rfl

/-- C7, amended: the cleaned text always has length at most 3000; the
no-URL property holds of the URL-removal pass (no `http(s)://` followed
by a non-whitespace character survives it) and the collapsed-whitespace
property holds of the whitespace pass (all whitespace is single plain
spaces); but because the marker-removal pass runs last, the final string
can re-acquire URLs, deletion markers, and adjacent spaces, as the
counterexample shows. -/
theorem clean_text_sanitization :
    (∀ s : String, (clean_text s).length ≤ 3000)
    ∧ (∀ cs : List Char, hasUrl (removeUrls cs) = false)
    ∧ (∀ cs : List Char, allWsSpace (collapseWs cs) = true ∧ noAdjWs (collapseWs cs) = true) := by
  refine ⟨?_, removeUrls_no_url,
    fun cs => ⟨allWsSpace_collapse cs false, noAdjWs_collapse cs false⟩⟩
  intro s
  unfold clean_text
  split_ifs
  · exact Nat.le_of_lt (by norm_num)
  · exact List.length_take_le _ _

/-- C7, counterexample.  Removing `[deleted]` after whitespace collapse
leaves a double space in "a [deleted] b"; it reassembles a URL in
"ht[deleted]tp://x.com"; and removing `[removed]` reassembles the
`[deleted]` marker itself — so the cleaned text can contain a URL, a
marker, and an uncollapsed whitespace run. -/
theorem clean_text_cex :
    clean_text "a [deleted] b" = "a  b"
    ∧ noAdjWs ("a  b".data) = false
    ∧ clean_text "ht[deleted]tp://x.com" = "http://x.com"
    ∧ hasUrl ("http://x.com".data) = true
    ∧ clean_text "[dele[removed]ted]x" = "[deleted]x"
    ∧ strContains "[deleted]x" "[deleted]" = true := by
  refine ⟨by decide, by decide, by decide, by decide, by decide, by decide⟩
